import Mathlib

/-!
Verification of the Findmejob job-board aggregator (`src/streamlit_app.py`)
against its natural-language specification.

The Python source is shallowly embedded: JSON values become the inductive
`Json`; a Python `dict` record produced by the scrapers becomes `RawJob`
(fields obtained from JSON carry `Json` values, since the code copies them
verbatim); Python operations that can raise (`.get` on a non-dict, `.lower()`
on a non-string, slicing a number, ...) become `Except Unit` computations;
the bare `except Exception` handlers of the source correspond to the points
where an `Except.error` is consumed.  Network responses are inputs: a `World`
maps each employer handle to the HTTP response (or transport error) that
`requests.get` would produce for it.
-/

/-- Model of a Python/JSON value, as produced by `resp.json()`. -/
inductive Json where
  | null : Json
  | bool : Bool → Json
  | num : Int → Json
  | str : String → Json
  | arr : List Json → Json
  | obj : List (String × Json) → Json

mutual

def jsonDecEq : (a b : Json) → Decidable (a = b)
  | .null, .null => .isTrue rfl
  | .bool x, .bool y =>
    match decEq x y with
    | .isTrue h => .isTrue (h ▸ rfl)
    | .isFalse h => .isFalse (fun e => h (Json.bool.inj e))
  | .num x, .num y =>
    match decEq x y with
    | .isTrue h => .isTrue (h ▸ rfl)
    | .isFalse h => .isFalse (fun e => h (Json.num.inj e))
  | .str x, .str y =>
    match decEq x y with
    | .isTrue h => .isTrue (h ▸ rfl)
    | .isFalse h => .isFalse (fun e => h (Json.str.inj e))
  | .arr xs, .arr ys =>
    match jsonListDecEq xs ys with
    | .isTrue h => .isTrue (h ▸ rfl)
    | .isFalse h => .isFalse (fun e => h (Json.arr.inj e))
  | .obj fs, .obj gs =>
    match jsonObjDecEq fs gs with
    | .isTrue h => .isTrue (h ▸ rfl)
    | .isFalse h => .isFalse (fun e => h (Json.obj.inj e))
  | .null, .bool _ => .isFalse (fun h => nomatch h)
  | .null, .num _ => .isFalse (fun h => nomatch h)
  | .null, .str _ => .isFalse (fun h => nomatch h)
  | .null, .arr _ => .isFalse (fun h => nomatch h)
  | .null, .obj _ => .isFalse (fun h => nomatch h)
  | .bool _, .null => .isFalse (fun h => nomatch h)
  | .bool _, .num _ => .isFalse (fun h => nomatch h)
  | .bool _, .str _ => .isFalse (fun h => nomatch h)
  | .bool _, .arr _ => .isFalse (fun h => nomatch h)
  | .bool _, .obj _ => .isFalse (fun h => nomatch h)
  | .num _, .null => .isFalse (fun h => nomatch h)
  | .num _, .bool _ => .isFalse (fun h => nomatch h)
  | .num _, .str _ => .isFalse (fun h => nomatch h)
  | .num _, .arr _ => .isFalse (fun h => nomatch h)
  | .num _, .obj _ => .isFalse (fun h => nomatch h)
  | .str _, .null => .isFalse (fun h => nomatch h)
  | .str _, .bool _ => .isFalse (fun h => nomatch h)
  | .str _, .num _ => .isFalse (fun h => nomatch h)
  | .str _, .arr _ => .isFalse (fun h => nomatch h)
  | .str _, .obj _ => .isFalse (fun h => nomatch h)
  | .arr _, .null => .isFalse (fun h => nomatch h)
  | .arr _, .bool _ => .isFalse (fun h => nomatch h)
  | .arr _, .num _ => .isFalse (fun h => nomatch h)
  | .arr _, .str _ => .isFalse (fun h => nomatch h)
  | .arr _, .obj _ => .isFalse (fun h => nomatch h)
  | .obj _, .null => .isFalse (fun h => nomatch h)
  | .obj _, .bool _ => .isFalse (fun h => nomatch h)
  | .obj _, .num _ => .isFalse (fun h => nomatch h)
  | .obj _, .str _ => .isFalse (fun h => nomatch h)
  | .obj _, .arr _ => .isFalse (fun h => nomatch h)

def jsonListDecEq : (xs ys : List Json) → Decidable (xs = ys)
  | [], [] => .isTrue rfl
  | [], _ :: _ => .isFalse (fun h => nomatch h)
  | _ :: _, [] => .isFalse (fun h => nomatch h)
  | x :: xs, y :: ys =>
    match jsonDecEq x y with
    | .isFalse h => .isFalse (fun e => h (List.cons.inj e).1)
    | .isTrue h1 =>
      match jsonListDecEq xs ys with
      | .isTrue h2 => .isTrue (h1 ▸ h2 ▸ rfl)
      | .isFalse h2 => .isFalse (fun e => h2 (List.cons.inj e).2)

def jsonObjDecEq : (fs gs : List (String × Json)) → Decidable (fs = gs)
  | [], [] => .isTrue rfl
  | [], _ :: _ => .isFalse (fun h => nomatch h)
  | _ :: _, [] => .isFalse (fun h => nomatch h)
  | (k, v) :: fs, (l, w) :: gs =>
    match decEq k l with
    | .isFalse h => .isFalse (fun e => h (congrArg Prod.fst (List.cons.inj e).1))
    | .isTrue hk =>
      match jsonDecEq v w with
      | .isFalse h => .isFalse (fun e => h (congrArg Prod.snd (List.cons.inj e).1))
      | .isTrue hv =>
        match jsonObjDecEq fs gs with
        | .isTrue ht => .isTrue (hk ▸ hv ▸ ht ▸ rfl)
        | .isFalse h => .isFalse (fun e => h (List.cons.inj e).2)

end

instance : DecidableEq Json := jsonDecEq

/-- Python truthiness (`if x:`) of a JSON value. -/
def pyTruthy : Json → Bool
  | .null => false
  | .bool b => b
  | .num n => n != 0
  | .str s => s != ""
  | .arr xs => !xs.isEmpty
  | .obj fs => !fs.isEmpty

/-- First binding of a key in an association list (Python dicts cannot hold
duplicate keys, so the choice is immaterial for dict-derived objects). -/
def jLookup : List (String × Json) → String → Option Json
  | [], _ => none
  | (k, v) :: rest, key => if k = key then some v else jLookup rest key

/-- Python `x.get(key, default)`: succeeds on a dict, raises `AttributeError`
on every other value. -/
def jGet (j : Json) (key : String) (dflt : Json) : Except Unit Json :=
  match j with
  | .obj fs =>
    match jLookup fs key with
    | some v => .ok v
    | none => .ok dflt
  | _ => .error ()

/-- Python `for item in x`: lists iterate their elements, strings iterate
their characters (each a one-character string), dicts iterate their keys;
every other value raises `TypeError`. -/
def pyIter : Json → Except Unit (List Json)
  | .arr xs => .ok xs
  | .str s => .ok (s.data.map fun c => Json.str (String.mk [c]))
  | .obj fs => .ok (fs.map fun kv => Json.str kv.1)
  | _ => .error ()

/-- Python `x[:10]`: slicing works on strings and lists, raises on the rest. -/
def pySlice10 : Json → Except Unit Json
  | .str s => .ok (.str (String.mk (s.data.take 10)))
  | .arr xs => .ok (.arr (xs.take 10))
  | _ => .error ()


/-! ## String helpers: Python `str.lower`, `str.strip`, substring `in` -/

/-- Python `str.lower()`, modelled character-by-character (exact on ASCII,
which is all the source's keyword logic relies on). -/
def strLower (s : String) : String := String.mk (s.data.map Char.toLower)

/-- Python `str.strip()` with no argument: remove leading and trailing
whitespace. -/
def pyStripList (cs : List Char) : List Char :=
  ((cs.dropWhile Char.isWhitespace).reverse.dropWhile Char.isWhitespace).reverse

/-- Python `str.strip()` lifted to `String`. -/
def pyStrip (s : String) : String := String.mk (pyStripList s.data)

/-- Whether `kw` is a leading segment of `hay`. -/
def isPre : List Char → List Char → Bool
  | [], _ => true
  | _ :: _, [] => false
  | a :: as, b :: bs => a == b && isPre as bs

/-- Whether `kw` occurs contiguously anywhere in `hay` (Python `kw in hay`). -/
def containsSub (hay kw : List Char) : Bool :=
  match hay with
  | [] => isPre kw []
  | c :: rest => isPre kw (c :: rest) || containsSub rest kw

/-- Python `needle in hay` on strings. -/
def strContains (hay needle : String) : Bool := containsSub hay.data needle.data

/-- Python `s.startswith(pre)`. -/
def strStarts (s pre : String) : Bool := isPre pre.data s.data

/-- `guess_remote` (src/streamlit_app.py lines 12-18): empty text is falsy and
yields `false`; otherwise the lowered text is searched for the four keywords. -/
def guess_remote (text : String) : Bool :=
  if text = "" then false
  else
    let t := strLower text
    (["remote", "anywhere", "work from home", "distributed"]).any fun k =>
      strContains t k

/-- `guess_remote` applied to a raw JSON value, as the scrapers do: a falsy
value returns `false` via the `if not text` guard; a non-empty string is
classified; any truthy non-string raises (`.lower()` is missing). -/
def guessRemoteJson (j : Json) : Except Unit Bool :=
  if pyTruthy j = false then .ok false
  else
    match j with
    | .str s => .ok (guess_remote s)
    | _ => .error ()

/-! ## Python `int(...)` and epoch-millisecond to `YYYY-MM-DD` conversion -/

/-- Digit run to its value; `none` unless the run is non-empty and all digits. -/
def digitsToNat (cs : List Char) : Option Nat :=
  if cs ≠ [] ∧ cs.all Char.isDigit then
    some (cs.foldl (fun a c => a * 10 + (c.toNat - 48)) 0)
  else none

/-- Python `int(s)` on a string: surrounding whitespace, an optional sign,
then decimal digits; anything else raises `ValueError`. -/
def parseIntStr (s : String) : Option Int :=
  match pyStripList s.data with
  | '+' :: ds => (digitsToNat ds).map Int.ofNat
  | '-' :: ds => (digitsToNat ds).map fun n => -(Int.ofNat n)
  | ds => (digitsToNat ds).map Int.ofNat

/-- Python `int(x)` on a JSON value: exact on strings, identity on numbers,
0/1 on booleans, raises `TypeError` on the rest. -/
def pyInt : Json → Except Unit Int
  | .num n => .ok n
  | .bool b => .ok (if b then 1 else 0)
  | .str s =>
    match parseIntStr s with
    | some n => .ok n
    | none => .error ()
  | _ => .error ()

/-- Gregorian date from days since 1970-01-01 shifted by 719468 (so `z` counts
days since 0000-03-01); standard era decomposition, all in `Nat`. -/
def civilFromDays (z : Nat) : Nat × Nat × Nat :=
  let era := z / 146097
  let doe := z % 146097
  let yoe := (doe - doe / 1460 + doe / 36524 - doe / 146096) / 365
  let y := era * 400 + yoe
  let doy := doe - (365 * yoe + yoe / 4 - yoe / 100)
  let mp := (5 * doy + 2) / 153
  let d := doy - (153 * mp + 2) / 5 + 1
  let m := if mp < 10 then mp + 3 else mp - 9
  (y + (if m ≤ 2 then 1 else 0), m, d)

/-- One decimal digit as a character. -/
def digitChar (n : Nat) : Char := Char.ofNat (48 + n % 10)

/-- Zero-padded four-digit year, as CPython's `strftime("%Y")` renders the
years datetime supports (1..9999). -/
def pad4 (n : Nat) : String :=
  String.mk [digitChar (n / 1000), digitChar (n / 100), digitChar (n / 10), digitChar n]

/-- Zero-padded two-digit field (`%m`, `%d`). -/
def pad2 (n : Nat) : String := String.mk [digitChar (n / 10), digitChar n]

/-- `datetime.utcfromtimestamp(ms / 1000.0).strftime("%Y-%m-%d")`: `none` when
the timestamp falls outside datetime's year 1..9999 range (the call raises and
the source keeps the raw value); otherwise the UTC calendar date. -/
def dateFromMs (ms : Int) : Option String :=
  if -62135596800000 ≤ ms ∧ ms ≤ 253402300799999 then
    let z := (ms.fdiv 86400000 + 719468).toNat
    let ymd := civilFromDays z
    some (pad4 ymd.1 ++ "-" ++ pad2 ymd.2.1 ++ "-" ++ pad2 ymd.2.2)
  else none

/-! ## The normalized record and the data-model schema -/

/-- A record as the scrapers actually build it: `company` and `source` are
always strings the code supplies itself and `remote` a computed boolean, while
`title`, `location`, `url` and `date_posted` are copied from the response and
therefore carry whatever JSON value was present. -/
structure RawJob where
  company : String
  title : Json
  location : Json
  remote : Bool
  source : String
  url : Json
  date_posted : Json
deriving DecidableEq

/-- JobPosting of the data model: every text field a (possibly empty) string. -/
structure JobPosting where
  company : String
  title : String
  location : String
  remote : Bool
  source : String
  url : String
  date_posted : String
deriving DecidableEq

/-- View a schema-conforming posting as a raw record. -/
def JobPosting.toRaw (p : JobPosting) : RawJob :=
  ⟨p.company, .str p.title, .str p.location, p.remote, p.source, .str p.url, .str p.date_posted⟩


/-! ## The network as input: responses per employer handle -/

/-- An HTTP response as the adapters inspect it: status code, `content-type`
header (empty string when absent), and the outcome of `resp.json()` — which
raises on a non-JSON body. -/
structure HttpResp where
  status : Nat
  contentType : String
  body : Except Unit Json

/-- One `div.posting` container as the Lever HTML fallback's selectors see it:
the optional title heading text, the optional location span text, and the
optional `a.posting-title` element, itself carrying an optional `href`. -/
structure Container where
  titleText : Option String
  locText : Option String
  link : Option (Option String)
deriving DecidableEq

/-- A parsed HTML listing page: status code and the containers the fixed CSS
selectors match. -/
structure HtmlResp where
  status : Nat
  containers : List Container

/-- The network, as a function of the employer handle: the response (or
transport error, for a raised `requests` exception) of each of the three
endpoints the source can GET. -/
structure World where
  leverStructured : String → Except Unit HttpResp
  leverHtml : String → Except Unit HtmlResp
  ghApi : String → Except Unit HttpResp

/-! ## Lever adapter (src/streamlit_app.py lines 54-128) -/

/-- One iteration of the structured loop (lines 70-92): pull the fields with
`.get` defaults, convert `createdAt` inside its own `try` (a failed conversion
keeps the raw value), classify `remote` from the raw location.  Any raise
escapes to the outer handler, aborting the batch. -/
def leverItem (h : String) (item : Json) : Except Unit RawJob := do
  let title ← jGet item "text" (.str "")
  let add ← jGet item "additional" (.obj [])
  let loc ← jGet add "location" (.str "")
  let leverUrl ← jGet item "hostedUrl" (.str "")
  let dp0 ← jGet item "createdAt" (.str "")
  let dp := if pyTruthy dp0 then
      match pyInt dp0 with
      | .error _ => dp0
      | .ok n =>
        match dateFromMs n with
        | none => dp0
        | some s => .str s
    else dp0
  let rem ← guessRemoteJson loc
  return ⟨h, title, loc, rem, "Lever", leverUrl, dp⟩

/-- The structured loop over the decoded items: jobs appended so far are kept
in `out` even when a later item raises; the second component records whether
the loop completed, i.e. whether line 93's `return out` was reached. -/
def leverItems (h : String) : List Json → List RawJob × Bool
  | [] => ([], true)
  | it :: rest =>
    match leverItem h it with
    | .error _ => ([], false)
    | .ok job =>
      let p := leverItems h rest
      (job :: p.1, p.2)

/-- The Structured-API path of `scrape_lever` (lines 66-95): the jobs it
contributes, and whether it returned early (success) or fell through to the
HTML fallback (transport error, wrong status, wrong content type, JSON decode
failure, or a raise while iterating). -/
def leverStructuredPhase (w : World) (h : String) : List RawJob × Bool :=
  match w.leverStructured h with
  | .error _ => ([], false)
  | .ok resp =>
    if resp.status == 200 && strStarts resp.contentType "application/json" then
      match resp.body with
      | .error _ => ([], false)
      | .ok data =>
        match pyIter data with
        | .error _ => ([], false)
        | .ok items => leverItems h items
    else ([], false)

/-- One HTML container to a record (lines 105-124): missing sub-elements
degrade to the empty string; a relative link is made absolute against the
Lever origin; `date_posted` is always empty here. -/
def containerToJob (h : String) (c : Container) : RawJob :=
  let title := c.titleText.getD ""
  let loc := c.locText.getD ""
  let href0 := match c.link with
    | some (some href) => href
    | some none => ""
    | none => ""
  let href := if href0 != "" && !strStarts href0 "http"
    then "https://jobs.lever.co" ++ href0 else href0
  ⟨h, .str title, .str loc, guess_remote loc, "Lever", .str href, .str ""⟩

/-- The HTML fallback path of `scrape_lever` (lines 98-126): the jobs it
appends to `out`; a transport error or non-200 status contributes nothing. -/
def leverHtmlPhase (w : World) (h : String) : List RawJob :=
  match w.leverHtml h with
  | .error _ => []
  | .ok resp =>
    if resp.status != 200 then []
    else resp.containers.map (containerToJob h)

/-- `scrape_lever` (lines 54-128): the structured path first; when it did not
return early, the HTML fallback's records are appended to the ones already in
`out`, and the whole list is returned. -/
def scrape_lever (w : World) (h : String) : List RawJob :=
  let p := leverStructuredPhase w h
  if p.2 then p.1 else p.1 ++ leverHtmlPhase w h

/-! ## Greenhouse adapter (src/streamlit_app.py lines 135-167) -/

/-- One iteration of the Greenhouse loop (lines 149-163): note the nested
`location.name` lookup and the `updated_at[:10]` slice, each able to raise. -/
def ghItem (t : String) (job : Json) : Except Unit RawJob := do
  let title ← jGet job "title" (.str "")
  let locObj ← jGet job "location" (.obj [])
  let locs ← jGet locObj "name" (.str "")
  let ghUrl ← jGet job "absolute_url" (.str "")
  let dp0 ← jGet job "updated_at" (.str "")
  let dp ← pySlice10 dp0
  let rem ← guessRemoteJson locs
  return ⟨t, title, locs, rem, "Greenhouse", ghUrl, dp⟩

/-- The Greenhouse loop: a raise aborts the batch, discarding nothing already
appended — the partial `out` is returned (there is no fallback). -/
def ghItems (t : String) : List Json → List RawJob
  | [] => []
  | j :: rest =>
    match ghItem t j with
    | .error _ => []
    | .ok job => job :: ghItems t rest

/-- `scrape_greenhouse` (lines 135-167): one JSON endpoint, no HTML fallback;
every failure path returns whatever is in `out`. -/
def scrape_greenhouse (w : World) (t : String) : List RawJob :=
  match w.ghApi t with
  | .error _ => []
  | .ok resp =>
    if resp.status != 200 then []
    else
      match resp.body with
      | .error _ => []
      | .ok data =>
        match jGet data "jobs" (.arr []) with
        | .error _ => []
        | .ok jobsJ =>
          match pyIter jobsJ with
          | .error _ => []
          | .ok items => ghItems t items

/-! ## Filter engine (src/streamlit_app.py lines 20-47) -/

/-- The body of the `for job in jobs` loop for one record: the blob join
raises on a non-string field (Python `TypeError` propagates out of
`filter_results`); otherwise the three guards decide inclusion. -/
def filterStep (r l e : String) (job : RawJob) : Except Unit Bool :=
  match job.title, job.location with
  | .str t, .str lo =>
    let blob := strLower (t ++ " " ++ job.company ++ " " ++ lo ++ " " ++ job.source)
    if r != "" && !strContains (strLower t) r then .ok false
    else if l != "" && !strContains (strLower lo ++ " " ++ strLower t) l then .ok false
    else if e != "" && !strContains blob e then .ok false
    else .ok true
  | _, _ => .error ()

/-- The loop of `filter_results`, keeping the records whose guards pass. -/
def filterGo (r l e : String) : List RawJob → Except Unit (List RawJob)
  | [] => .ok []
  | job :: rest =>
    match filterStep r l e job with
    | .error _ => .error ()
    | .ok true => (filterGo r l e rest).map fun tail => job :: tail
    | .ok false => filterGo r l e rest

/-- `filter_results` (lines 20-47): keywords are stripped and lowered once,
then each record is tested in order. -/
def filter_results (jobs : List RawJob) (roleKw locKw extraKw : String) :
    Except Unit (List RawJob) :=
  filterGo (strLower (pyStrip roleKw)) (strLower (pyStrip locKw))
    (strLower (pyStrip extraKw)) jobs

/-! ## Shortlist store (src/streamlit_app.py lines 191-195) -/

/-- `save_job`: build the list of saved urls, append only when the new
record's url is not among them. -/
def save_job (saved : List RawJob) (row : RawJob) : List RawJob :=
  if (saved.map fun j => j.url).contains row.url then saved
  else saved ++ [row]

/-! ## Aggregator (src/streamlit_app.py lines 174-180) and target routing -/

/-- `fetch_all_jobs`: extend over all Lever handles first, then over all
Greenhouse tokens. -/
def fetch_all_jobs (w : World) (leverCompanies greenhouseTokens : List String) :
    List RawJob :=
  let jobs := leverCompanies.foldl (fun acc c => acc ++ scrape_lever w c) []
  greenhouseTokens.foldl (fun acc g => acc ++ scrape_greenhouse w g) jobs

/-- The two platforms a parsed target line can name. -/
inductive Platform where
  | lever : Platform
  | greenhouse : Platform
deriving DecidableEq

/-- The routing loop of `main` (lines 228-239): each target goes to its
platform's list, preserving the order within each platform. -/
def splitTargets : List (Platform × String) → List String × List String
  | [] => ([], [])
  | (p, id) :: rest =>
    let pr := splitTargets rest
    match p with
    | .lever => (id :: pr.1, pr.2)
    | .greenhouse => (pr.1, id :: pr.2)

/-- The adapter `main` dispatches a target of each platform to. -/
def adapterFor (w : World) : Platform → String → List RawJob
  | .lever => scrape_lever w
  | .greenhouse => scrape_greenhouse w

/-- What the program computes for a mixed target list: route the targets to
the two per-platform lists, then `fetch_all_jobs`. -/
def codeAggregate (w : World) (ts : List (Platform × String)) : List RawJob :=
  fetch_all_jobs w (splitTargets ts).1 (splitTargets ts).2

/-- Modelled from the spec: the aggregator contract of section 4.4, which
"concatenates all sequences in input order" over the supplied
(platform, employer) pairs — the comparison point for the refinement claim. -/
def specAggregate (w : World) (ts : List (Platform × String)) : List RawJob :=
  (ts.map fun t => adapterFor w t.1 t.2).flatten

/-! ## Concrete scenarios -/

/-- The structured entry of end-to-end scenario 1. -/
def c5item : Json := .obj [("text", .str "Senior QA Engineer"),
  ("additional", .obj [("location", .str "Remote - US")]),
  ("hostedUrl", .str "https://x/1"), ("createdAt", .str "1700000000000")]

/-- The record scenario 1 should produce. -/
def c5job : RawJob := ⟨"acme", .str "Senior QA Engineer", .str "Remote - US",
  true, "Lever", .str "https://x/1", .str "2023-11-14"⟩

/-- World for scenario 1: the Lever JSON endpoint answers with the one-element
array; nothing else is reachable. -/
def wC5 : World :=
  ⟨fun _ => .ok ⟨200, "application/json", .ok (.arr [c5item])⟩,
   fun _ => .error (), fun _ => .error ()⟩

/-- A listing container the HTML fallback would turn into a record. -/
def sampleContainer : Container := ⟨some "Orbit Engineer", some "Remote", some (some "/c/1")⟩

/-- World where the structured endpoint succeeds with an empty job array while
the HTML page holds one posting. -/
def wEmptyArr : World :=
  ⟨fun _ => .ok ⟨200, "application/json", .ok (.arr [])⟩,
   fun _ => .ok ⟨200, [sampleContainer]⟩, fun _ => .error ()⟩

/-- A well-formed structured entry. -/
def goodItem : Json := .obj [("text", .str "Good Role")]

/-- The record `goodItem` parses to. -/
def goodJob : RawJob := ⟨"acme", .str "Good Role", .str "", false, "Lever", .str "", .str ""⟩

/-- An entry whose nested location field has an unexpected type: `.get` on the
string raises `AttributeError`. -/
def badItem : Json := .obj [("additional", .str "oops")]

/-- World whose structured response holds the malformed entry followed by the
well-formed one; both other endpoints fail. -/
def wMalformed : World :=
  ⟨fun _ => .ok ⟨200, "application/json", .ok (.arr [badItem, goodItem])⟩,
   fun _ => .error (), fun _ => .error ()⟩

/-- World where both platforms succeed with one job each. -/
def wBoth : World :=
  ⟨fun _ => .ok ⟨200, "application/json", .ok (.arr [.obj [("text", .str "L-role")]])⟩,
   fun _ => .error (),
   fun _ => .ok ⟨200, "", .ok (.obj [("jobs", .arr [.obj [("title", .str "G-role")]])])⟩⟩

/-- A Greenhouse target followed by a Lever target. -/
def tsMixed : List (Platform × String) := [(.greenhouse, "g"), (.lever, "l")]

/-- World whose two JSON endpoints answer with failing statuses. -/
def wNon2xx : World :=
  ⟨fun _ => .ok ⟨500, "", .error ()⟩, fun _ => .error (), fun _ => .ok ⟨404, "", .error ()⟩⟩

/-- World whose two JSON endpoints answer 200 with empty JSON. -/
def wEmptyJson : World :=
  ⟨fun _ => .ok ⟨200, "application/json", .ok (.arr [])⟩,
   fun _ => .error (), fun _ => .ok ⟨200, "application/json", .ok (.obj [])⟩⟩


/-- The spec's notion for C9: `kw` occurs as a case-insensitive substring of
`t`, i.e. some contiguous run of characters of `t` lowers to `kw`. -/
def occursCI (kw t : String) : Prop :=
  ∃ a m b, t.data = a ++ m ++ b ∧ m.map Char.toLower = kw.data

/-- A record with an empty url, as the HTML fallback can produce. -/
def emptyUrlJob : RawJob := ⟨"e", .str "", .str "", false, "Lever", .str "", .str ""⟩

/-! ## Substring facts for the classifier -/

theorem isPre_iff (kw hay : List Char) : isPre kw hay = true ↔ ∃ b, hay = kw ++ b := by
  induction kw generalizing hay with
  | nil => simp [isPre]
  | cons a as ih =>
    cases hay with
    | nil => simp [isPre]
    | cons b bs =>
      rw [isPre]
      simp only [Bool.and_eq_true, beq_iff_eq, ih, List.cons_append, List.cons.injEq]
      constructor
      · rintro ⟨rfl, c, rfl⟩; exact ⟨c, rfl, rfl⟩
      · rintro ⟨c, rfl, rfl⟩; exact ⟨rfl, c, rfl⟩

theorem containsSub_iff (hay kw : List Char) :
    containsSub hay kw = true ↔ ∃ a b, hay = a ++ (kw ++ b) := by
  induction hay with
  | nil =>
    rw [containsSub, isPre_iff]
    constructor
    · rintro ⟨b, hb⟩; exact ⟨[], b, hb⟩
    · rintro ⟨a, b, hab⟩
      cases a with
      | nil => exact ⟨b, hab⟩
      | cons x xs => exact absurd hab (by simp)
  | cons c rest ih =>
    rw [containsSub]
    simp only [Bool.or_eq_true, isPre_iff, ih]
    constructor
    · rintro (⟨b, hb⟩ | ⟨a, b, hb⟩)
      · exact ⟨[], b, hb⟩
      · exact ⟨c :: a, b, by rw [hb]; rfl⟩
    · rintro ⟨a, b, hab⟩
      cases a with
      | nil => exact Or.inl ⟨b, hab⟩
      | cons x xs =>
        rw [List.cons_append] at hab
        obtain ⟨rfl, h2⟩ := List.cons.inj hab
        exact Or.inr ⟨xs, b, h2⟩

theorem map_append_split {f : Char → Char} :
    ∀ {l a b : List Char}, l.map f = a ++ b →
    ∃ a1 b1, l = a1 ++ b1 ∧ a1.map f = a ∧ b1.map f = b := by
  intro l a
  induction a generalizing l with
  | nil => exact fun h => ⟨[], l, rfl, rfl, by simpa using h⟩
  | cons x xs ih =>
    intro b h
    cases l with
    | nil => simp at h
    | cons y ys =>
      simp only [List.map_cons, List.cons_append, List.cons.injEq] at h
      obtain ⟨h1, h2⟩ := h
      obtain ⟨a1, b1, rfl, hm1, hm2⟩ := ih h2
      exact ⟨y :: a1, b1, rfl, by simp [hm1, h1], hm2⟩

theorem strContains_lower_iff (t kw : String) :
    strContains (strLower t) kw = true ↔ occursCI kw t := by
  show containsSub (t.data.map Char.toLower) kw.data = true ↔ _
  rw [containsSub_iff]
  constructor
  · rintro ⟨a, b, h⟩
    obtain ⟨a1, rest1, hl, ha, hrest⟩ := map_append_split h
    obtain ⟨m1, b1, hl2, hm, hb⟩ := map_append_split hrest
    exact ⟨a1, m1, b1, by rw [hl, hl2, List.append_assoc], hm⟩
  · rintro ⟨a, m, b, ht, hm⟩
    refine ⟨a.map Char.toLower, b.map Char.toLower, ?_⟩
    rw [ht]
    simp [hm]

/-- C9: the remote-hint classifier returns `false` on the empty string, and
returns `true` exactly when one of the four fixed keywords occurs
case-insensitively anywhere in the text. -/
theorem guess_remote_spec :
    guess_remote "" = false ∧
    ∀ t : String, guess_remote t = true ↔
      (t ≠ "" ∧ ∃ kw ∈ (["remote", "anywhere", "work from home", "distributed"] : List String),
        occursCI kw t) := by
  refine ⟨rfl, fun t => ?_⟩
  by_cases ht : t = ""
  · subst ht
    rw [guess_remote]
    simp
  · rw [guess_remote, if_neg ht]
    simp only [List.any_eq_true, strContains_lower_iff, ne_eq, ht, not_false_iff, true_and]

/-! ## Filter engine laws -/

theorem filterGo_all_true {r l e : String} {js : List RawJob}
    (h : ∀ j ∈ js, filterStep r l e j = .ok true) : filterGo r l e js = .ok js := by
  induction js with
  | nil => rfl
  | cons j rest ih =>
    rw [filterGo, h j (List.mem_cons_self j rest),
      ih fun x hx => h x (List.mem_cons_of_mem _ hx)]
    rfl

theorem filterGo_mem_true {r l e : String} :
    ∀ {js ys : List RawJob}, filterGo r l e js = .ok ys →
    ∀ y ∈ ys, filterStep r l e y = .ok true := by
  intro js
  induction js with
  | nil =>
    intro ys h
    rw [filterGo] at h
    cases h
    simp
  | cons j rest ih =>
    intro ys h
    rw [filterGo] at h
    cases hs : filterStep r l e j with
    | error u => rw [hs] at h; cases h
    | ok b =>
      rw [hs] at h
      cases b with
      | false => exact ih h
      | true =>
        cases hr : filterGo r l e rest with
        | error u => rw [hr] at h; cases h
        | ok tail =>
          rw [hr] at h
          cases h
          intro y hy
          rcases List.mem_cons.mp hy with rfl | hmem
          · exact hs
          · exact ih hr y hmem

/-- C8: the filter engine is idempotent — filtering an already-filtered
sequence with the same three keywords returns it unchanged. -/
theorem filter_results_idempotent (jobs ys : List RawJob) (r l e : String)
    (h : filter_results jobs r l e = .ok ys) : filter_results ys r l e = .ok ys :=
  filterGo_all_true (filterGo_mem_true h)

theorem filter_results_idempotent_witness :
    filter_results [goodJob] "good" "" "" = .ok [goodJob] :=
  filter_results_idempotent [goodJob, ⟨"x", .str "Junior Dev", .str "", false,
    "Lever", .str "", .str ""⟩] [goodJob] "good" "" "" rfl

/-- C7: with all three keywords empty after trimming, the filter returns every
schema-conforming posting, in order. -/
theorem filter_results_identity (ps : List JobPosting) (r l e : String)
    (hr : pyStrip r = "") (hl : pyStrip l = "") (he : pyStrip e = "") :
    filter_results (ps.map JobPosting.toRaw) r l e = .ok (ps.map JobPosting.toRaw) := by
  unfold filter_results
  rw [hr, hl, he]
  exact filterGo_all_true fun j hj => by
    obtain ⟨p, hp, rfl⟩ := List.mem_map.mp hj
    rfl

theorem filter_results_identity_witness :
    filter_results ([⟨"acme", "Senior QA Engineer", "Remote - US", true, "Lever",
      "https://x/1", "2023-11-14"⟩].map JobPosting.toRaw) " " "" "  " =
    .ok ([⟨"acme", "Senior QA Engineer", "Remote - US", true, "Lever",
      "https://x/1", "2023-11-14"⟩].map JobPosting.toRaw) :=
  filter_results_identity _ " " "" "  " (by decide) (by decide) (by decide)

/-! ## Shortlist store facts -/

theorem contains_url_iff (s : List RawJob) (u : Json) :
    (s.map fun j => j.url).contains u = true ↔ ∃ j ∈ s, j.url = u := by
  induction s with
  | nil => simp
  | cons j rest ih =>
    simp only [List.map_cons, List.contains_cons, Bool.or_eq_true, beq_iff_eq, ih,
      List.mem_cons]
    constructor
    · rintro (h | ⟨x, hx, hu⟩)
      · exact ⟨j, Or.inl rfl, h.symm⟩
      · exact ⟨x, Or.inr hx, hu⟩
    · rintro ⟨x, (rfl | hx), hu⟩
      · exact Or.inl hu.symm
      · exact Or.inr ⟨x, hx, hu⟩

theorem save_job_of_mem {s : List RawJob} {p : RawJob}
    (h : ∃ j ∈ s, j.url = p.url) : save_job s p = s := by
  rw [save_job, if_pos ((contains_url_iff s p.url).mpr h)]

theorem save_job_of_not_mem {s : List RawJob} {p : RawJob}
    (h : ¬∃ j ∈ s, j.url = p.url) : save_job s p = s ++ [p] := by
  rw [save_job, if_neg]
  intro hc
  exact h ((contains_url_iff s p.url).mp hc)

theorem filter_url_nil {s : List RawJob} {u : Json} (h : ¬∃ j ∈ s, j.url = u) :
    s.filter (fun j => j.url == u) = [] := by
  rw [List.filter_eq_nil_iff]
  intro a ha hb
  exact h ⟨a, ha, by simpa using hb⟩

theorem filter_url_one {u : Json} : ∀ {s : List RawJob},
    (s.map fun j => j.url).Nodup → (∃ j ∈ s, j.url = u) →
    (s.filter fun j => j.url == u).length = 1 := by
  intro s
  induction s with
  | nil => intro _ h; simp at h
  | cons j rest ih =>
    intro hnd h
    simp only [List.map_cons, List.nodup_cons] at hnd
    obtain ⟨hj, hrest⟩ := hnd
    by_cases hju : j.url = u
    · rw [List.filter_cons_of_pos (by simpa using hju)]
      have hnone : rest.filter (fun x => x.url == u) = [] := by
        apply filter_url_nil
        rintro ⟨x, hx, hxu⟩
        apply hj
        rw [hju, ← hxu]
        exact List.mem_map_of_mem _ hx
      rw [hnone]
      rfl
    · rw [List.filter_cons_of_neg (by simpa using hju)]
      apply ih hrest
      rcases h with ⟨x, hx, hxu⟩
      rcases List.mem_cons.mp hx with rfl | hxr
      · exact absurd hxu hju
      · exact ⟨x, hxr, hxu⟩

/-- C6: the store keeps urls unique — `save_job` preserves the no-duplicate-url
invariant, appends exactly when the url is new, leaves exactly one entry for a
url after two saves sharing it, and repeated identical saves are idempotent. -/
theorem save_job_dedup (s : List RawJob) (p q : RawJob)
    (hinv : (s.map fun j => j.url).Nodup) (hpq : p.url = q.url) :
    ((save_job s p).map fun j => j.url).Nodup
    ∧ ((∃ j ∈ s, j.url = p.url) → save_job s p = s)
    ∧ ((¬∃ j ∈ s, j.url = p.url) → save_job s p = s ++ [p])
    ∧ ((save_job (save_job s p) q).filter fun j => j.url == p.url).length = 1
    ∧ save_job (save_job s p) p = save_job s p := by
  by_cases hmem : ∃ j ∈ s, j.url = p.url
  · have h1 := save_job_of_mem hmem
    have h2 : save_job s q = s := by
      apply save_job_of_mem
      rcases hmem with ⟨j, hj, hu⟩
      exact ⟨j, hj, hu.trans hpq⟩
    refine ⟨by rw [h1]; exact hinv, fun _ => h1, fun hn => absurd hmem hn, ?_, ?_⟩
    · rw [h1, h2]
      exact filter_url_one hinv hmem
    · rw [h1, h1]
  · have h1 := save_job_of_not_mem hmem
    have hne : ∀ j ∈ s, j.url ≠ p.url := fun j hj hu => hmem ⟨j, hj, hu⟩
    have hnd : ((s ++ [p]).map fun j => j.url).Nodup := by
      rw [List.map_append, List.nodup_append]
      refine ⟨hinv, by simp, ?_⟩
      intro a ha hb
      simp only [List.map_cons, List.map_nil, List.mem_singleton] at hb
      obtain ⟨x, hx, rfl⟩ := List.mem_map.mp ha
      exact hne x hx hb
    have h2 : save_job (s ++ [p]) q = s ++ [p] :=
      save_job_of_mem ⟨p, by simp, hpq⟩
    refine ⟨by rw [h1]; exact hnd, fun hm => absurd hm hmem, fun _ => h1, ?_, ?_⟩
    · rw [h1, h2, List.filter_append, filter_url_nil hmem]
      simp
    · rw [h1]
      exact save_job_of_mem ⟨p, by simp, rfl⟩

theorem save_job_dedup_witness :
    ((save_job [] goodJob).map fun j => j.url).Nodup
    ∧ save_job [] goodJob = [] ++ [goodJob]
    ∧ ((save_job (save_job [] goodJob) goodJob).filter fun j => j.url == goodJob.url).length = 1
    ∧ save_job (save_job [] goodJob) goodJob = save_job [] goodJob :=
  have H := save_job_dedup [] goodJob goodJob (by simp) rfl
  ⟨H.1, H.2.2.1 (by simp), H.2.2.2.1, H.2.2.2.2⟩

/-- C10: a listing container without a link element yields `url = ""`; the
store treats the empty string as an ordinary key, so a second record with an
empty url is rejected once one is saved, and a store never accumulates more
than one empty-url entry. -/
theorem html_empty_url_dedup (h : String) (c : Container) (s : List RawJob) (q : RawJob)
    (hc : c.link = none)
    (hs : ∃ j ∈ s, j.url = Json.str "")
    (hq : q.url = Json.str "") :
    (containerToJob h c).url = Json.str ""
    ∧ save_job s q = s
    ∧ ∀ (s2 : List RawJob) (p : RawJob),
        (s2.filter fun j => j.url == Json.str "").length ≤ 1 →
        ((save_job s2 p).filter fun j => j.url == Json.str "").length ≤ 1 := by
  refine ⟨?_, ?_, ?_⟩
  · simp [containerToJob, hc]
  · apply save_job_of_mem
    rcases hs with ⟨j, hj, hu⟩
    exact ⟨j, hj, hu.trans hq.symm⟩
  · intro s2 p hcount
    by_cases hm : ∃ j ∈ s2, j.url = p.url
    · rw [save_job_of_mem hm]; exact hcount
    · rw [save_job_of_not_mem hm, List.filter_append]
      by_cases hpu : p.url = Json.str ""
      · have hn : s2.filter (fun j => j.url == Json.str "") = [] := by
          apply filter_url_nil
          rintro ⟨x, hx, hxu⟩
          exact hm ⟨x, hx, hxu.trans hpu.symm⟩
        rw [hn]
        simp [hpu]
      · have hn : ([p].filter fun j => j.url == Json.str "") = [] := by simp [hpu]
        rw [hn, List.append_nil]
        exact hcount

theorem html_empty_url_dedup_witness :
    (containerToJob "acme" ⟨none, none, none⟩).url = Json.str ""
    ∧ save_job [emptyUrlJob] emptyUrlJob = [emptyUrlJob]
    ∧ ((save_job [] emptyUrlJob).filter fun j => j.url == Json.str "").length ≤ 1 :=
  have H := html_empty_url_dedup "acme" ⟨none, none, none⟩ [emptyUrlJob] emptyUrlJob
    rfl ⟨emptyUrlJob, by simp, rfl⟩ rfl
  ⟨H.1, H.2.1, H.2.2 [] emptyUrlJob (by simp)⟩

/-! ## Structured-adapter failure behavior and scenario 1 -/

/-- C2: the Structured-API path given a non-2xx status produces the same
output as given a 200 response with empty JSON, namely the empty sequence, on
both platforms; both computations are total functions of the response, which
is the embedded form of "no exception reaches the caller". -/
theorem structured_non2xx_eq_empty (w w2 : World) (h t : String)
    (r r2 rg rg2 : HttpResp)
    (h1 : w.leverStructured h = .ok r) (h2 : ¬(200 ≤ r.status ∧ r.status < 300))
    (h3 : w2.leverStructured h = .ok r2) (h4 : r2.status = 200)
    (h5 : strStarts r2.contentType "application/json" = true)
    (h6 : r2.body = .ok (Json.arr []))
    (g1 : w.ghApi t = .ok rg) (g2 : ¬(200 ≤ rg.status ∧ rg.status < 300))
    (g3 : w2.ghApi t = .ok rg2) (g4 : rg2.status = 200)
    (g5 : rg2.body = .ok (Json.obj [])) :
    (leverStructuredPhase w h).1 = []
    ∧ (leverStructuredPhase w2 h).1 = []
    ∧ scrape_greenhouse w t = []
    ∧ scrape_greenhouse w2 t = [] := by
  have hr200 : r.status ≠ 200 := by
    intro e
    exact h2 ⟨by omega, by omega⟩
  have hg200 : rg.status ≠ 200 := by
    intro e
    exact g2 ⟨by omega, by omega⟩
  refine ⟨?_, ?_, ?_, ?_⟩
  · rw [leverStructuredPhase, h1]
    simp [hr200]
  · rw [leverStructuredPhase, h3]
    simp [h4, h5, h6, pyIter, leverItems]
  · rw [scrape_greenhouse, g1]
    simp [hg200]
  · rw [scrape_greenhouse, g3]
    simp [g4, g5, jGet, jLookup, pyIter, ghItems]

theorem structured_non2xx_eq_empty_witness :
    (leverStructuredPhase wNon2xx "acme").1 = []
    ∧ (leverStructuredPhase wEmptyJson "acme").1 = []
    ∧ scrape_greenhouse wNon2xx "tok" = []
    ∧ scrape_greenhouse wEmptyJson "tok" = [] :=
  structured_non2xx_eq_empty wNon2xx wEmptyJson "acme" "tok"
    ⟨500, "", .error ()⟩ ⟨200, "application/json", .ok (.arr [])⟩
    ⟨404, "", .error ()⟩ ⟨200, "application/json", .ok (.obj [])⟩
    rfl (by decide) rfl rfl (by decide) rfl rfl (by decide) rfl rfl rfl

/-- C5: end-to-end scenario 1 — a 200 JSON response for employer `"acme"`
holding the one specified entry produces exactly one record with title
`"Senior QA Engineer"`, `remote = true`, `date_posted = "2023-11-14"` (the
epoch-millisecond `createdAt` converted via UTC), url `"https://x/1"` and
source `"Lever"`. -/
theorem lever_scenario_one (w : World)
    (hresp : w.leverStructured "acme" =
      .ok ⟨200, "application/json", .ok (.arr [c5item])⟩) :
    scrape_lever w "acme" = [c5job] := by
  rw [scrape_lever, leverStructuredPhase, hresp]
  rfl

theorem lever_scenario_one_witness : scrape_lever wC5 "acme" = [c5job] :=
  lever_scenario_one wC5 rfl

/-! ## Strategy order and fallback triggering -/

/-- C1 counterexample: with a successful structured response whose job array
is empty, `scrape_lever` returns the empty list even though the HTML fallback
— had it been attempted — would have produced a posting; so an empty
structured result does not trigger the fallback. -/
theorem lever_empty_array_no_fallback_cx :
    scrape_lever wEmptyArr "acme" = [] ∧ leverHtmlPhase wEmptyArr "acme" ≠ [] :=
  ⟨rfl, by decide⟩

/-- C1 amended: for Lever the structured strategy runs first and the HTML
fallback is attempted exactly when the structured phase does not return early
— early return covers every successful parse, including an empty job array —
with any partial structured results kept in front of the fallback's; when the
phase returns early the adapter's output does not depend on the HTML world at
all.  Greenhouse has only the structured strategy, so its output never
depends on the HTML world either. -/
theorem adapter_fallback_structure (w w2 : World) (h t : String)
    (hs : w.leverStructured = w2.leverStructured) (hg : w.ghApi = w2.ghApi) :
    ((leverStructuredPhase w h).2 = true →
      scrape_lever w h = (leverStructuredPhase w h).1
      ∧ scrape_lever w h = scrape_lever w2 h)
    ∧ ((leverStructuredPhase w h).2 = false →
      scrape_lever w h = (leverStructuredPhase w h).1 ++ leverHtmlPhase w h)
    ∧ scrape_greenhouse w t = scrape_greenhouse w2 t := by
  have hph : leverStructuredPhase w h = leverStructuredPhase w2 h := by
    rw [leverStructuredPhase, leverStructuredPhase, hs]
  refine ⟨fun he => ⟨?_, ?_⟩, fun he => ?_, ?_⟩
  · rw [scrape_lever]
    simp only [he, if_true]
  · have he2 : (leverStructuredPhase w2 h).2 = true := hph ▸ he
    rw [scrape_lever, scrape_lever, hph]
    simp only [he2, if_true]
  · rw [scrape_lever]
    simp only [he, Bool.false_eq_true, if_false]
  · rw [scrape_greenhouse, scrape_greenhouse, hg]

theorem adapter_fallback_structure_witness :
    ((leverStructuredPhase wC5 "acme").2 = true →
      scrape_lever wC5 "acme" = (leverStructuredPhase wC5 "acme").1
      ∧ scrape_lever wC5 "acme" = scrape_lever wC5 "acme")
    ∧ ((leverStructuredPhase wC5 "acme").2 = false →
      scrape_lever wC5 "acme"
        = (leverStructuredPhase wC5 "acme").1 ++ leverHtmlPhase wC5 "acme")
    ∧ scrape_greenhouse wC5 "tok" = scrape_greenhouse wC5 "tok" :=
  adapter_fallback_structure wC5 wC5 "acme" "tok" rfl rfl

/-! ## Malformed entries abort the structured batch -/

theorem leverItems_abort (h : String) (bad : Json) (rest : List Json) :
    ∀ pre : List Json, (∀ it ∈ pre, ∃ job, leverItem h it = .ok job) →
    leverItem h bad = .error () →
    leverItems h (pre ++ bad :: rest)
      = (pre.filterMap fun it => (leverItem h it).toOption, false) := by
  intro pre
  induction pre with
  | nil =>
    intro _ hbad
    rw [List.nil_append, leverItems, hbad]
    rfl
  | cons it pre ih =>
    intro hpre hbad
    obtain ⟨job, hjob⟩ := hpre it (List.mem_cons_self _ _)
    rw [List.cons_append, leverItems, hjob,
      ih (fun x hx => hpre x (List.mem_cons_of_mem _ hx)) hbad]
    simp [List.filterMap_cons, hjob, Except.toOption]

/-- C4 counterexample: a structured batch holding one malformed entry and one
perfectly parseable entry yields zero postings — the parseable entry is not
emitted and the malformed one does not degrade to empty-string fields, because
the raise aborts the whole loop (and here the fallback also fails). -/
theorem malformed_entry_cx :
    leverItem "acme" goodItem = Except.ok goodJob
    ∧ scrape_lever wMalformed "acme" = [] :=
  ⟨rfl, rfl⟩

/-- C4 amended: a malformed entry aborts the structured batch at that entry —
entries before it are kept, entries after it are never parsed — and the HTML
fallback is then attempted, its records appended after the partial results.
Only a missing field degrades to an empty string; a present field of
unexpected type raises. -/
theorem malformed_entry_aborts_batch (w : World) (h ct : String)
    (pre : List Json) (bad : Json) (rest : List Json)
    (hresp : w.leverStructured h = .ok ⟨200, ct, .ok (.arr (pre ++ bad :: rest))⟩)
    (hct : strStarts ct "application/json" = true)
    (hpre : ∀ it ∈ pre, ∃ job, leverItem h it = .ok job)
    (hbad : leverItem h bad = .error ()) :
    scrape_lever w h
      = (pre.filterMap fun it => (leverItem h it).toOption) ++ leverHtmlPhase w h := by
  have hphase : leverStructuredPhase w h
      = (pre.filterMap fun it => (leverItem h it).toOption, false) := by
    rw [leverStructuredPhase, hresp]
    simp only [hct, Bool.and_true, beq_self_eq_true, if_true, pyIter]
    exact leverItems_abort h bad rest pre hpre hbad
  rw [scrape_lever, hphase]
  simp

theorem malformed_entry_aborts_batch_witness :
    scrape_lever wMalformed "acme"
      = (([] : List Json).filterMap fun it => (leverItem "acme" it).toOption)
        ++ leverHtmlPhase wMalformed "acme" :=
  malformed_entry_aborts_batch wMalformed "acme" "application/json"
    [] badItem [goodItem] rfl rfl (by simp) rfl

/-! ## Aggregation order -/

theorem foldl_extend (f : String → List RawJob) :
    ∀ (ls : List String) (init : List RawJob),
    ls.foldl (fun acc c => acc ++ f c) init = init ++ (ls.map f).flatten := by
  intro ls
  induction ls with
  | nil => intro init; simp
  | cons c rest ih =>
    intro init
    rw [List.foldl_cons, ih, List.map_cons, List.flatten_cons, List.append_assoc]

theorem fetch_all_jobs_eq (w : World) (ls gs : List String) :
    fetch_all_jobs w ls gs
      = (ls.map (scrape_lever w)).flatten ++ (gs.map (scrape_greenhouse w)).flatten := by
  rw [fetch_all_jobs]
  simp only [foldl_extend, List.nil_append]

theorem splitTargets_lever_append (ts1 ts2 : List (Platform × String))
    (h1 : ∀ p ∈ ts1, p.1 = Platform.lever) :
    splitTargets (ts1 ++ ts2)
      = (ts1.map Prod.snd ++ (splitTargets ts2).1, (splitTargets ts2).2) := by
  induction ts1 with
  | nil => simp
  | cons p rest ih =>
    obtain ⟨pf, id⟩ := p
    have hpf : pf = Platform.lever := h1 (pf, id) (List.mem_cons_self _ _)
    subst hpf
    rw [List.cons_append, splitTargets,
      ih fun x hx => h1 x (List.mem_cons_of_mem _ hx)]
    simp

theorem splitTargets_gh (ts2 : List (Platform × String))
    (h2 : ∀ p ∈ ts2, p.1 = Platform.greenhouse) :
    splitTargets ts2 = ([], ts2.map Prod.snd) := by
  induction ts2 with
  | nil => rfl
  | cons p rest ih =>
    obtain ⟨pf, id⟩ := p
    have hpf : pf = Platform.greenhouse := h2 (pf, id) (List.mem_cons_self _ _)
    subst hpf
    rw [splitTargets, ih fun x hx => h2 x (List.mem_cons_of_mem _ hx)]
    rfl

theorem specAggregate_append (w : World) (a b : List (Platform × String)) :
    specAggregate w (a ++ b) = specAggregate w a ++ specAggregate w b := by
  simp [specAggregate]

/-- C3 counterexample: a Greenhouse target followed by a Lever target — the
concatenation-in-input-order contract would put the Greenhouse job first, but
the program emits the Lever job first. -/
theorem aggregator_interleave_cx :
    codeAggregate wBoth tsMixed ≠ specAggregate wBoth tsMixed := by decide

/-- C3 amended: the aggregator concatenates per-target results with all Lever
targets' results first, in their supplied order, followed by all Greenhouse
targets' results in their supplied order; a failing employer contributes an
empty sublist without affecting any other target's contribution, and on
inputs that already list every Lever target before every Greenhouse target the
output coincides with concatenation in input order. -/
theorem fetch_all_jobs_order (w : World) (ts : List (Platform × String))
    (ls gs : List String) :
    fetch_all_jobs w ls gs
      = (ls.map (scrape_lever w)).flatten ++ (gs.map (scrape_greenhouse w)).flatten
    ∧ codeAggregate w ts
      = ((splitTargets ts).1.map (scrape_lever w)).flatten
        ++ ((splitTargets ts).2.map (scrape_greenhouse w)).flatten
    ∧ ∀ ts1 ts2 : List (Platform × String),
        (∀ p ∈ ts1, p.1 = Platform.lever) →
        (∀ p ∈ ts2, p.1 = Platform.greenhouse) →
        codeAggregate w (ts1 ++ ts2) = specAggregate w (ts1 ++ ts2) := by
  refine ⟨fetch_all_jobs_eq w ls gs, fetch_all_jobs_eq w _ _, ?_⟩
  intro ts1 ts2 h1 h2
  rw [codeAggregate, splitTargets_lever_append ts1 ts2 h1, splitTargets_gh ts2 h2]
  rw [specAggregate_append]
  simp only [List.append_nil]
  rw [fetch_all_jobs_eq]
  have e1 : specAggregate w ts1 = ((ts1.map Prod.snd).map (scrape_lever w)).flatten := by
    rw [specAggregate, List.map_map]
    congr 1
    apply List.map_congr_left
    intro p hp
    rw [h1 p hp]
    rfl
  have e2 : specAggregate w ts2 = ((ts2.map Prod.snd).map (scrape_greenhouse w)).flatten := by
    rw [specAggregate, List.map_map]
    congr 1
    apply List.map_congr_left
    intro p hp
    rw [h2 p hp]
    rfl
  rw [e1, e2]

theorem fetch_all_jobs_order_witness :
    (fetch_all_jobs wBoth ["l"] ["g"]
      = ((["l"].map (scrape_lever wBoth)).flatten
        ++ (["g"].map (scrape_greenhouse wBoth)).flatten))
    ∧ codeAggregate wBoth tsMixed
      = ((splitTargets tsMixed).1.map (scrape_lever wBoth)).flatten
        ++ ((splitTargets tsMixed).2.map (scrape_greenhouse wBoth)).flatten
    ∧ codeAggregate wBoth ([(Platform.lever, "l")] ++ [(Platform.greenhouse, "g")])
      = specAggregate wBoth ([(Platform.lever, "l")] ++ [(Platform.greenhouse, "g")]) :=
  have H := fetch_all_jobs_order wBoth tsMixed ["l"] ["g"]
  ⟨H.1, H.2.1, H.2.2 [(Platform.lever, "l")] [(Platform.greenhouse, "g")]
    (by simp) (by simp)⟩
